import Mathlib

/-!
Shallow embedding of the inline Solidity contract `Kazar` from
`gas-fund-and-mint.js` (the treasury disbursement policy, the sweep
operation and the minter set) together with proofs about the
spec claims C1 to C10.

Modelling conventions:
  - addresses are `Nat`, with `0` standing for `address(0)`;
  - the chain balance table is a function `Nat → Nat`; the contract
    (treasury) lives at a distinguished address `self`, so
    `bal self` is `address(this).balance`;
  - `accepts : Nat → Bool` abstracts the ledger layer: `accepts to`
    says whether a value-bearing `call` to `to` succeeds once the
    sender has enough balance (EVM low-level `call` fails when the
    sender balance is below the value, or when the callee reverts);
  - `uint256` overflow only matters where the source computes in an
    `unchecked` block: the `need` accumulator wraps modulo `2 ^ 256`,
    written explicitly; balances themselves are conserved quantities
    and cannot overflow;
  - a Solidity `revert` is modelled as `Except.error`; the run
    functions below give revert-rollback semantics (an error leaves
    the pre-state untouched).
-/

namespace Kazar

/-- Word bound of the EVM: arithmetic inside `unchecked` wraps modulo this. -/
def U256 : Nat := 2 ^ 256

/-- Revert reasons of the contract that the modelled operations can raise.
`Unauthorized` stands for the `onlyOwner` revert of OpenZeppelin `Ownable`;
the others are the custom errors declared in the source. -/
inductive KErr where
  | Unauthorized
  | NotMinter
  | InsufficientTreasury
  | SweepFailed
  deriving DecidableEq

/-- Pointwise update of a boolean table (the `minter` mapping). -/
def updFn (f : Nat → Bool) (a : Nat) (v : Bool) : Nat → Bool :=
  fun x => if x = a then v else f x

/-- Pointwise update of the balance table. -/
def updBal (f : Nat → Nat) (a v : Nat) : Nat → Nat :=
  fun x => if x = a then v else f x

/-- Effect on the balance table of a successful value transfer of
`amount` from `self` to `to` (the EVM semantics of
`to.call\x7bvalue: amount\x7d("")` once it succeeds). A self transfer
leaves the table unchanged. -/
def transferStep (bal : Nat → Nat) (self dst amount : Nat) : Nat → Nat :=
  let b1 := updBal bal self (bal self - amount)
  updBal b1 dst (b1 dst + amount)

/-- Aggregate pre-check accumulator of `distributeIfBelowFromTreasury`:
the first loop of the source, run inside `unchecked`, adding `amount`
(with wrap-around modulo `2 ^ 256`) for every recipient whose balance is
below `threshold`. Note that the zero address is NOT skipped here. -/
def distNeed (bal : Nat → Nat) (amount threshold : Nat) (rs : List Nat) : Nat :=
  rs.foldl (fun n r => if bal r < threshold then (n + amount) % U256 else n) 0

/-- Execution loop of `distributeIfBelowFromTreasury`: walk the
recipients in order; skip the zero address; re-read the CURRENT balance
of the recipient (the source reads `to.balance` again inside this loop);
attempt the transfer when it is below `threshold`; ignore the success
flag of the call (`ok; // touch var` in the source). Returns the final
balance table together with the list of recipients actually paid, in
payment order and with multiplicity. -/
def execBatch (self : Nat) (accepts : Nat → Bool) (amount threshold : Nat) :
    List Nat → (Nat → Nat) → (Nat → Nat) × List Nat
  | [], bal => (bal, [])
  | r :: rs, bal =>
    if r = 0 then execBatch self accepts amount threshold rs bal
    else if bal r < threshold then
      if amount ≤ bal self ∧ accepts r = true then
        let out := execBatch self accepts amount threshold rs
          (transferStep bal self r amount)
        (out.1, r :: out.2)
      else execBatch self accepts amount threshold rs bal
    else execBatch self accepts amount threshold rs bal

/-- Model of `distributeIfBelowFromTreasury(recipients, amount, threshold)`:
`onlyOwner` check first, then the aggregate pre-check
(`address(this).balance < need` reverts `InsufficientTreasury`), then the
execution loop. On success it returns the new balance table and the list
of paid recipients. -/
def distributeIfBelowFromTreasury (owner self : Nat) (accepts : Nat → Bool)
    (sender : Nat) (recipients : List Nat) (amount threshold : Nat)
    (bal : Nat → Nat) : Except KErr ((Nat → Nat) × List Nat) :=
  if sender = owner then
    if bal self < distNeed bal amount threshold recipients then
      .error .InsufficientTreasury
    else
      .ok (execBatch self accepts amount threshold recipients bal)
  else .error .Unauthorized

/-- Model of `sweep(to, value)`: `onlyOwner`, then a single low-level
call of `value` to `to`; `SweepFailed` when the call fails. -/
def sweep (owner self : Nat) (accepts : Nat → Bool) (sender dst value : Nat)
    (bal : Nat → Nat) : Except KErr (Nat → Nat) :=
  if sender = owner then
    if value ≤ bal self ∧ accepts dst = true then
      .ok (transferStep bal self dst value)
    else .error .SweepFailed
  else .error .Unauthorized

/-- Model of `addMinter(account)`: `onlyOwner`, then unconditionally set
the mapping entry to true. -/
def addMinter (owner sender account : Nat) (m : Nat → Bool) :
    Except KErr (Nat → Bool) :=
  if sender = owner then .ok (updFn m account true)
  else .error .Unauthorized

/-- Model of `removeMinter(account)`: `onlyOwner`, then revert
`NotMinter` when the entry is false, otherwise delete it. -/
def removeMinter (owner sender account : Nat) (m : Nat → Bool) :
    Except KErr (Nat → Bool) :=
  if sender = owner then
    if m account = true then .ok (updFn m account false)
    else .error .NotMinter
  else .error .Unauthorized

/-- Minter mapping right after the constructor ran: every entry is the
mapping default false, except the deployer which the constructor body
sets to true (`minter[msg.sender] = true`). -/
def initialMinter (deployer : Nat) : Nat → Bool :=
  updFn (fun _ => false) deployer true

/-- Balance table reached by a call to `distributeIfBelowFromTreasury`
with revert-rollback semantics: an error leaves the chain state as it
was before the call. -/
def runDistribute (owner self : Nat) (accepts : Nat → Bool) (sender : Nat)
    (recipients : List Nat) (amount threshold : Nat) (bal : Nat → Nat) :
    Nat → Nat :=
  match distributeIfBelowFromTreasury owner self accepts sender recipients
      amount threshold bal with
  | .ok p => p.1
  | .error _ => bal

/-- Balance of address `a` in the outcome of a disbursement call, or
`none` when the call reverted. -/
def balOf (r : Except KErr ((Nat → Nat) × List Nat)) (a : Nat) : Option Nat :=
  match r with
  | .ok p => some (p.1 a)
  | .error _ => none

/-- List of recipients paid by a disbursement call, or `none` on revert. -/
def paidOf (r : Except KErr ((Nat → Nat) × List Nat)) : Option (List Nat) :=
  match r with
  | .ok p => some p.2
  | .error _ => none

/-- Revert reason of a disbursement call, or `none` on success. -/
def errOf (r : Except KErr ((Nat → Nat) × List Nat)) : Option KErr :=
  match r with
  | .ok _ => none
  | .error e => some e

/-! Concrete chain states used by the counterexamples and witnesses.
The treasury contract lives at address 1, the owner key at address 10;
addresses 2 and 3 are child wallets, address 0 is the null address. -/

/-- Ledger in which every call succeeds (all recipients are plain
externally owned accounts). -/
def acceptAll : Nat → Bool := fun _ => true

/-- Ledger in which the account at address 2 rejects incoming value. -/
def rejects2 : Nat → Bool := fun a => !(a == 2)

/-- Balance table: treasury holds 100, everyone else 0. -/
def bal100 : Nat → Nat := fun a => if a = 1 then 100 else 0

/-- Balance table: treasury holds 40, everyone else 0. -/
def bal40 : Nat → Nat := fun a => if a = 1 then 40 else 0

/-- Balance table: every address, the treasury included, holds 0. -/
def balZero : Nat → Nat := fun _ => 0

/-- Balance table for the at-threshold scenario: treasury 100, address 2
empty, address 3 exactly at the threshold value 7. -/
def balAt7 : Nat → Nat := fun a => if a = 1 then 100 else if a = 3 then 7 else 0

/-- Example minter mapping holding exactly address 5. -/
def mem5 : Nat → Bool := fun a => a == 5

end Kazar

namespace Kazar

/-! Helper lemmas about the embedded operations. These are shared by
several claim theorems. -/

theorem U256_pos : 0 < U256 := by
  unfold U256
  positivity

/-- The aggregate pre-check accumulator, started from any value below
the word bound, computes the wrapped product of `amount` with the number
of under-threshold recipients. -/
theorem distNeed_foldl_eq (bal : Nat → Nat) (amount threshold : Nat) :
    ∀ (rs : List Nat) (n : Nat), n < U256 →
      rs.foldl (fun n r => if bal r < threshold then (n + amount) % U256 else n) n
        = (n + amount * rs.countP (fun r => decide (bal r < threshold))) % U256 := by
  intro rs
  induction rs with
  | nil =>
    intro n hn
    simp [Nat.mod_eq_of_lt hn]
  | cons r rs ih =>
    intro n hn
    rw [List.foldl_cons]
    by_cases h : bal r < threshold
    · rw [if_pos h, ih _ (Nat.mod_lt _ U256_pos), Nat.mod_add_mod,
        List.countP_cons_of_pos _ _ (by simpa using h)]
      congr 1
      ring
    · rw [if_neg h, ih _ hn, List.countP_cons_of_neg _ _ (by simpa using h)]

/-- The aggregate requirement equals the wrapped product of the top-up
amount with the count of under-threshold recipients. -/
theorem distNeed_eq_mod (bal : Nat → Nat) (amount threshold : Nat)
    (rs : List Nat) :
    distNeed bal amount threshold rs
      = (amount * rs.countP (fun r => decide (bal r < threshold))) % U256 := by
  have h := distNeed_foldl_eq bal amount threshold rs 0 U256_pos
  simpa [distNeed] using h

/-- Inversion of a successful disbursement call: the outcome is exactly
the execution loop run on the pre-state. -/
theorem distribute_ok_inv {owner self : Nat} {accepts : Nat → Bool}
    {sender : Nat} {rs : List Nat} {amount threshold : Nat}
    {bal : Nat → Nat} {p : (Nat → Nat) × List Nat}
    (h : distributeIfBelowFromTreasury owner self accepts sender rs amount
        threshold bal = .ok p) :
    p = execBatch self accepts amount threshold rs bal := by
  unfold distributeIfBelowFromTreasury at h
  split at h
  · split at h
    · exact absurd h (by simp)
    · exact (Except.ok.injEq _ _ ▸ h).symm
  · exact absurd h (by simp)

/-- The execution loop never touches an address, other than the
treasury, whose account rejects incoming value, and never lists it as
paid. -/
theorem execBatch_rejected (self : Nat) (accepts : Nat → Bool)
    (amount threshold a : Nat) (hr : accepts a = false) (hs : a ≠ self) :
    ∀ (rs : List Nat) (bal : Nat → Nat),
      (execBatch self accepts amount threshold rs bal).1 a = bal a ∧
      a ∉ (execBatch self accepts amount threshold rs bal).2 := by
  intro rs
  induction rs with
  | nil => intro bal; simp [execBatch]
  | cons r rs ih =>
    intro bal
    unfold execBatch
    by_cases h0 : r = 0
    · simpa [h0] using ih bal
    · by_cases hlt : bal r < threshold
      · by_cases hok : amount ≤ bal self ∧ accepts r = true
        · have hra : r ≠ a := by
            intro he
            rw [he, hr] at hok
            exact absurd hok.2 (by simp)
          have har : a ≠ r := fun h => hra h.symm
          have := ih (transferStep bal self r amount)
          simp only [if_neg h0, if_pos hlt, if_pos hok]
          refine ⟨?_, ?_⟩
          · rw [this.1]
            simp [transferStep, updBal, hs, har]
          · simp only [List.mem_cons, not_or]
            exact ⟨har, this.2⟩
        · simpa [h0, hlt, hok] using ih bal
      · simpa [h0, hlt] using ih bal

/-- The execution loop never touches an address, other than the
treasury, whose balance is at or above the threshold, and never lists
it as paid: its balance can only grow during the loop, so the strict
comparison keeps failing. -/
theorem execBatch_atThreshold (self : Nat) (accepts : Nat → Bool)
    (amount threshold a : Nat) (hs : a ≠ self) :
    ∀ (rs : List Nat) (bal : Nat → Nat), threshold ≤ bal a →
      (execBatch self accepts amount threshold rs bal).1 a = bal a ∧
      a ∉ (execBatch self accepts amount threshold rs bal).2 := by
  intro rs
  induction rs with
  | nil => intro bal _; simp [execBatch]
  | cons r rs ih =>
    intro bal hat
    unfold execBatch
    by_cases h0 : r = 0
    · simpa [h0] using ih bal hat
    · by_cases hlt : bal r < threshold
      · by_cases hok : amount ≤ bal self ∧ accepts r = true
        · have hra : r ≠ a := by
            intro he
            rw [he] at hlt
            exact absurd hat (Nat.not_le_of_lt hlt)
          have har : a ≠ r := fun h => hra h.symm
          have hb1 : transferStep bal self r amount a = bal a := by
            simp [transferStep, updBal, hs, har]
          have := ih (transferStep bal self r amount) (hb1 ▸ hat)
          simp only [if_neg h0, if_pos hlt, if_pos hok]
          refine ⟨by rw [this.1, hb1], ?_⟩
          simp only [List.mem_cons, not_or]
          exact ⟨har, this.2⟩
        · simpa [h0, hlt, hok] using ih bal hat
      · simpa [h0, hlt] using ih bal hat

end Kazar

namespace Kazar

/-- Accounting invariant of the execution loop, for batches that do not
list the treasury itself as a recipient: the treasury pays exactly
`amount` for each entry of the paid list, never overdrawing, and every
other address gains exactly `amount` per time it appears in the paid
list. -/
theorem execBatch_accounting (self : Nat) (accepts : Nat → Bool)
    (amount threshold : Nat) :
    ∀ (rs : List Nat) (bal : Nat → Nat), self ∉ rs →
      amount * (execBatch self accepts amount threshold rs bal).2.length
          ≤ bal self ∧
      (execBatch self accepts amount threshold rs bal).1 self
        = bal self
          - amount * (execBatch self accepts amount threshold rs bal).2.length ∧
      ∀ a, a ≠ self →
        (execBatch self accepts amount threshold rs bal).1 a
          = bal a
            + amount * (execBatch self accepts amount threshold rs bal).2.count a := by
  intro rs
  induction rs with
  | nil => intro bal _; simp [execBatch]
  | cons r rs ih =>
    intro bal hself
    simp only [List.mem_cons, not_or] at hself
    obtain ⟨hsr, hstl⟩ := hself
    unfold execBatch
    by_cases h0 : r = 0
    · simpa [h0] using ih bal hstl
    · by_cases hlt : bal r < threshold
      · by_cases hok : amount ≤ bal self ∧ accepts r = true
        · have hrs : r ≠ self := fun h => hsr h.symm
          have hb1self : transferStep bal self r amount self
              = bal self - amount := by
            simp [transferStep, updBal, hsr]
          have IH := ih (transferStep bal self r amount) hstl
          simp only [if_neg h0, if_pos hlt, if_pos hok, List.length_cons]
          refine ⟨?_, ?_, ?_⟩
          · rw [Nat.mul_succ]
            have h1 := Nat.add_le_add_right (hb1self ▸ IH.1) amount
            rwa [Nat.sub_add_cancel hok.1] at h1
          · rw [IH.2.1, hb1self, Nat.sub_sub, Nat.mul_succ]
            congr 1
            ring
          · intro a ha
            rw [IH.2.2 a ha]
            by_cases hae : a = r
            · have hrs2 : ¬r = self := fun h => hsr h.symm
              have hb1a : transferStep bal self r amount a = bal a + amount := by
                simp [transferStep, updBal, hae, hrs2]
              rw [hb1a, hae, List.count_cons_self, Nat.mul_succ]
              ring
            · have hb1a : transferStep bal self r amount a = bal a := by
                simp [transferStep, updBal, ha, hae]
              rw [hb1a]
              simp [List.count_cons, hae]
        · simpa [h0, hlt, hok] using ih bal hstl
      · simpa [h0, hlt] using ih bal hstl

/-- Dropping every occurrence of an element on which the predicate is
false does not change the count. -/
theorem countP_filter_ne (p : Nat → Bool) (r : Nat) (hpr : p r = false) :
    ∀ rs : List Nat, (rs.filter (fun x => !(x == r))).countP p = rs.countP p := by
  intro rs
  induction rs with
  | nil => simp
  | cons x rs ih =>
    by_cases hx : x = r
    · subst hx
      simp [List.filter_cons, List.countP_cons, hpr, ih]
    · simp [List.filter_cons, List.countP_cons, hx, ih]

/-- An at-or-above-threshold recipient contributes nothing to the
aggregate requirement: removing all its occurrences from the batch does
not change `need`. -/
theorem distNeed_filter_of_ge (bal : Nat → Nat) (amount threshold r : Nat)
    (h : threshold ≤ bal r) (rs : List Nat) :
    distNeed bal amount threshold rs
      = distNeed bal amount threshold (rs.filter (fun x => !(x == r))) := by
  rw [distNeed_eq_mod, distNeed_eq_mod,
    countP_filter_ne _ r (by simpa using Nat.not_lt.mpr h)]

end Kazar

namespace Kazar

/-- C10: immediately after construction the deploying identity is a
member of the minter set, without any addMinter call: the constructor
body itself executes `minter[msg.sender] = true`. -/
theorem C10_deployer_is_minter (deployer : Nat) :
    initialMinter deployer deployer = true := by
  simp [initialMinter, updFn]

/-- C9: the aggregate requirement of `distributeIfBelowFromTreasury` is
computed with wrapping (unchecked) addition: it always equals
`(amount * countUnder) % 2 ^ 256`; concretely, on a batch of two
under-threshold recipients with `amount = 2 ^ 255` the computed need
wraps to 0, so the `InsufficientTreasury` gate passes on an empty
treasury even though the true total `2 ^ 256` exceeds it, and the call
succeeds. -/
theorem C9_unchecked_need :
    (∀ (bal : Nat → Nat) (amount threshold : Nat) (rs : List Nat),
      distNeed bal amount threshold rs
        = (amount * rs.countP (fun r => decide (bal r < threshold))) % U256) ∧
    balZero 1 < 2 ^ 255 * [2, 3].countP (fun r => decide (balZero r < 1)) ∧
    distNeed balZero (2 ^ 255) 1 [2, 3] = 0 ∧
    errOf (distributeIfBelowFromTreasury 10 1 acceptAll 10 [2, 3] (2 ^ 255) 1
      balZero) = none :=
  ⟨distNeed_eq_mod, by decide, by decide, by decide⟩

/-- C8: called by the controller, `removeMinter` of a non-member reverts
`NotMinter` (so the set is unchanged), while `addMinter` of an existing
member succeeds and returns the very same minter set. -/
theorem C8_minter_idempotence (owner a b : Nat) (m : Nat → Bool)
    (ha : m a = false) (hb : m b = true) :
    removeMinter owner owner a m = .error .NotMinter ∧
    addMinter owner owner b m = .ok m := by
  constructor
  · simp [removeMinter, ha]
  · have hupd : updFn m b true = m := by
      funext x
      by_cases hx : x = b
      · simp [updFn, hx, hb]
      · simp [updFn, hx]
    simp [addMinter, hupd]

theorem C8_minter_idempotence_witness :
    removeMinter 1 1 7 mem5 = .error .NotMinter ∧
    addMinter 1 1 5 mem5 = .ok mem5 :=
  C8_minter_idempotence 1 7 5 mem5 (by decide) (by decide)

/-- C6: each of the four controller-gated operations, called from an
identity other than the controller, reverts `Unauthorized` whatever the
batch, balances or minter set are (hence the check precedes the
aggregate pre-check and every transfer), and the state is unchanged. -/
theorem C6_only_owner (owner self sender dst value account : Nat)
    (accepts : Nat → Bool) (rs : List Nat) (amount threshold : Nat)
    (bal : Nat → Nat) (m : Nat → Bool) (h : sender ≠ owner) :
    distributeIfBelowFromTreasury owner self accepts sender rs amount threshold
        bal = .error .Unauthorized ∧
    runDistribute owner self accepts sender rs amount threshold bal = bal ∧
    sweep owner self accepts sender dst value bal = .error .Unauthorized ∧
    addMinter owner sender account m = .error .Unauthorized ∧
    removeMinter owner sender account m = .error .Unauthorized := by
  have hd : distributeIfBelowFromTreasury owner self accepts sender rs amount
      threshold bal = .error .Unauthorized := by
    simp [distributeIfBelowFromTreasury, h]
  exact ⟨hd, by simp [runDistribute, hd], by simp [sweep, h],
    by simp [addMinter, h], by simp [removeMinter, h]⟩

theorem C6_only_owner_witness :
    distributeIfBelowFromTreasury 10 1 acceptAll 5 [2] 30 1 bal100
      = .error .Unauthorized ∧
    runDistribute 10 1 acceptAll 5 [2] 30 1 bal100 = bal100 ∧
    sweep 10 1 acceptAll 5 3 40 bal100 = .error .Unauthorized ∧
    addMinter 10 5 3 mem5 = .error .Unauthorized ∧
    removeMinter 10 5 3 mem5 = .error .Unauthorized :=
  C6_only_owner 10 1 5 3 40 3 acceptAll [2] 30 1 bal100 mem5 (by decide)

/-- C1 counterexample: recipient 2 is eligible and its ledger transfer
fails, yet the batch does NOT revert: the call succeeds, recipient 3 is
still paid 30 and the treasury is debited to 70; there is no abort and
no TransferRejected outcome. -/
theorem C1_counterexample :
    rejects2 2 = false ∧ bal100 2 < 1 ∧
    errOf (distributeIfBelowFromTreasury 10 1 rejects2 10 [2, 3] 30 1 bal100)
      = none ∧
    balOf (distributeIfBelowFromTreasury 10 1 rejects2 10 [2, 3] 30 1 bal100) 3
      = some 30 ∧
    balOf (distributeIfBelowFromTreasury 10 1 rejects2 10 [2, 3] 30 1 bal100) 1
      = some 70 ∧
    balOf (distributeIfBelowFromTreasury 10 1 rejects2 10 [2, 3] 30 1 bal100) 2
      = some 0 := by
  decide

/-- C1 amended: a ledger-layer transfer failure mid-batch is silently
swallowed instead of aborting the batch: the call outcome (success, or
which revert reason) is entirely independent of the transfer oracle, and
a rejecting recipient other than the treasury keeps its balance and is
not listed as paid while the rest of the batch commits. -/
theorem C1_transfer_failure_ignored (owner self a : Nat)
    (accepts accepts2 : Nat → Bool) (sender : Nat) (rs : List Nat)
    (amount threshold : Nat) (bal : Nat → Nat) {b2 : Nat → Nat}
    {paid : List Nat}
    (hok : distributeIfBelowFromTreasury owner self accepts owner rs amount
        threshold bal = .ok (b2, paid))
    (hrej : accepts a = false) (hs : a ≠ self) :
    b2 a = bal a ∧ a ∉ paid ∧
    errOf (distributeIfBelowFromTreasury owner self accepts2 sender rs amount
        threshold bal)
      = errOf (distributeIfBelowFromTreasury owner self accepts sender rs
        amount threshold bal) := by
  have hp := distribute_ok_inv hok
  have hb2 : b2 = (execBatch self accepts amount threshold rs bal).1 :=
    congrArg Prod.fst hp
  have hpd : paid = (execBatch self accepts amount threshold rs bal).2 :=
    congrArg Prod.snd hp
  have H := execBatch_rejected self accepts amount threshold a hrej hs rs bal
  refine ⟨hb2 ▸ H.1, hpd ▸ H.2, ?_⟩
  by_cases hso : sender = owner
  · by_cases hg : bal self < distNeed bal amount threshold rs
    · simp [distributeIfBelowFromTreasury, hso, hg, errOf]
    · simp [distributeIfBelowFromTreasury, hso, hg, errOf]
  · simp [distributeIfBelowFromTreasury, hso, errOf]

theorem C1_transfer_failure_ignored_witness :
    (execBatch 1 rejects2 30 1 [2, 3] bal100).1 2 = bal100 2 ∧
    2 ∉ (execBatch 1 rejects2 30 1 [2, 3] bal100).2 ∧
    errOf (distributeIfBelowFromTreasury 10 1 acceptAll 10 [2, 3] 30 1 bal100)
      = errOf (distributeIfBelowFromTreasury 10 1 rejects2 10 [2, 3] 30 1
        bal100) :=
  C1_transfer_failure_ignored 10 1 2 rejects2 acceptAll 10 [2, 3] 30 1 bal100
    rfl (by decide) (by decide)

/-- C2 counterexample: the aggregate requirement does NOT count only
non-zero identities: in Scenario D it is 60, not 30, and with a treasury
of 40 the presence of the null recipient flips the outcome for recipient
2 from paid to InsufficientTreasury. -/
theorem C2_counterexample :
    distNeed bal100 30 1 [0, 2] = 60 ∧
    errOf (distributeIfBelowFromTreasury 10 1 acceptAll 10 [0, 2] 30 1 bal40)
      = some .InsufficientTreasury ∧
    balOf (distributeIfBelowFromTreasury 10 1 acceptAll 10 [2] 30 1 bal40) 2
      = some 30 := by
  decide

/-- C2 amended: a null recipient is skipped only by the transfer loop;
the aggregate pre-check counts it like any under-threshold entry. In
Scenario D the required amount is therefore 60, which still fits the
treasury of 100, so recipient 2 is paid 30, the null recipient receives
nothing and the treasury ends at 70. -/
theorem C2_scenarioD :
    distNeed bal100 30 1 [0, 2] = 60 ∧
    errOf (distributeIfBelowFromTreasury 10 1 acceptAll 10 [0, 2] 30 1 bal100)
      = none ∧
    paidOf (distributeIfBelowFromTreasury 10 1 acceptAll 10 [0, 2] 30 1 bal100)
      = some [2] ∧
    balOf (distributeIfBelowFromTreasury 10 1 acceptAll 10 [0, 2] 30 1 bal100) 2
      = some 30 ∧
    balOf (distributeIfBelowFromTreasury 10 1 acceptAll 10 [0, 2] 30 1 bal100) 1
      = some 70 ∧
    balOf (distributeIfBelowFromTreasury 10 1 acceptAll 10 [0, 2] 30 1 bal100) 0
      = some 0 := by
  decide

/-- C3 counterexample: with `amount = 2 ^ 255` and two under-threshold
recipients the true required sum `2 ^ 256` exceeds the empty treasury,
yet the wrapped need is 0: the gate passes and the call succeeds instead
of reverting InsufficientTreasury (the state happens to stay unchanged
because every transfer attempt fails for lack of funds and is ignored). -/
theorem C3_counterexample :
    balZero 1 < 2 ^ 255 * [2, 3].countP (fun r => decide (balZero r < 1)) ∧
    errOf (distributeIfBelowFromTreasury 10 1 acceptAll 10 [2, 3] (2 ^ 255) 1
      balZero) = none ∧
    runDistribute 10 1 acceptAll 10 [2, 3] (2 ^ 255) 1 balZero = balZero :=
  ⟨by decide, by decide, rfl⟩

/-- C3 amended: as long as the aggregate sum does not wrap past
`2 ^ 256`, the property holds as stated: when the sum of topupAmount
over under-threshold recipients exceeds the treasury balance, the
controller call reverts `InsufficientTreasury` before any transfer and
every balance is unchanged. -/
theorem C3_aggregate_gate (owner self : Nat) (accepts : Nat → Bool)
    (rs : List Nat) (amount threshold : Nat) (bal : Nat → Nat)
    (hnw : amount * rs.countP (fun r => decide (bal r < threshold)) < U256)
    (hgt : bal self
      < amount * rs.countP (fun r => decide (bal r < threshold))) :
    distributeIfBelowFromTreasury owner self accepts owner rs amount threshold
      bal = .error .InsufficientTreasury ∧
    runDistribute owner self accepts owner rs amount threshold bal = bal := by
  have hne : distNeed bal amount threshold rs
      = amount * rs.countP (fun r => decide (bal r < threshold)) := by
    rw [distNeed_eq_mod, Nat.mod_eq_of_lt hnw]
  have hd : distributeIfBelowFromTreasury owner self accepts owner rs amount
      threshold bal = .error .InsufficientTreasury := by
    simp [distributeIfBelowFromTreasury, hne, hgt]
  exact ⟨hd, by simp [runDistribute, hd]⟩

theorem C3_aggregate_gate_witness :
    distributeIfBelowFromTreasury 10 1 acceptAll 10 [2, 3] 30 1 bal40
      = .error .InsufficientTreasury ∧
    runDistribute 10 1 acceptAll 10 [2, 3] 30 1 bal40 = bal40 :=
  C3_aggregate_gate 10 1 acceptAll [2, 3] 30 1 bal40 (by decide) (by decide)

/-- C5: exact accounting of a successful batch over external recipients
(the treasury is not itself listed): the treasury decreases by exactly
`amount` times the number of payments made, never overdrawing, and every
other address gains exactly `amount` for each time it was paid. -/
theorem C5_exact_accounting (owner self : Nat) (accepts : Nat → Bool)
    (rs : List Nat) (amount threshold : Nat) (bal : Nat → Nat)
    {b2 : Nat → Nat} {paid : List Nat}
    (hok : distributeIfBelowFromTreasury owner self accepts owner rs amount
        threshold bal = .ok (b2, paid))
    (hself : self ∉ rs) :
    amount * paid.length ≤ bal self ∧
    b2 self = bal self - amount * paid.length ∧
    ∀ a, a ≠ self → b2 a = bal a + amount * paid.count a := by
  have hp := distribute_ok_inv hok
  have hb2 : b2 = (execBatch self accepts amount threshold rs bal).1 :=
    congrArg Prod.fst hp
  have hpd : paid = (execBatch self accepts amount threshold rs bal).2 :=
    congrArg Prod.snd hp
  have H := execBatch_accounting self accepts amount threshold rs bal hself
  rw [hb2, hpd]
  exact H

theorem C5_exact_accounting_witness :
    30 * (execBatch 1 acceptAll 30 1 [2, 3] bal100).2.length ≤ bal100 1 ∧
    (execBatch 1 acceptAll 30 1 [2, 3] bal100).1 1
      = bal100 1 - 30 * (execBatch 1 acceptAll 30 1 [2, 3] bal100).2.length ∧
    (execBatch 1 acceptAll 30 1 [2, 3] bal100).1 2
      = bal100 2 + 30 * (execBatch 1 acceptAll 30 1 [2, 3] bal100).2.count 2 := by
  have h := C5_exact_accounting 10 1 acceptAll [2, 3] 30 1 bal100 rfl (by decide)
  exact ⟨h.1, h.2.1, h.2.2 2 (by decide)⟩

/-- C7: a recipient, other than the treasury itself, whose balance
equals the threshold is never paid by a successful batch, keeps its
balance, and contributes nothing to the aggregate requirement (removing
all its occurrences leaves `need` unchanged): eligibility is the strict
comparison. -/
theorem C7_at_threshold_skip (owner self r : Nat) (accepts : Nat → Bool)
    (rs : List Nat) (amount threshold : Nat) (bal : Nat → Nat)
    {b2 : Nat → Nat} {paid : List Nat}
    (hok : distributeIfBelowFromTreasury owner self accepts owner rs amount
        threshold bal = .ok (b2, paid))
    (hat : bal r = threshold) (hs : r ≠ self) :
    r ∉ paid ∧ b2 r = bal r ∧
    distNeed bal amount threshold rs
      = distNeed bal amount threshold (rs.filter (fun x => !(x == r))) := by
  have hp := distribute_ok_inv hok
  have hb2 : b2 = (execBatch self accepts amount threshold rs bal).1 :=
    congrArg Prod.fst hp
  have hpd : paid = (execBatch self accepts amount threshold rs bal).2 :=
    congrArg Prod.snd hp
  have H := execBatch_atThreshold self accepts amount threshold r hs rs bal
    hat.ge
  exact ⟨hpd ▸ H.2, hb2 ▸ H.1,
    distNeed_filter_of_ge bal amount threshold r hat.ge rs⟩

theorem C7_at_threshold_skip_witness :
    3 ∉ (execBatch 1 acceptAll 5 7 [2, 3] balAt7).2 ∧
    (execBatch 1 acceptAll 5 7 [2, 3] balAt7).1 3 = balAt7 3 ∧
    distNeed balAt7 5 7 [2, 3]
      = distNeed balAt7 5 7 ([2, 3].filter (fun x => !(x == 3))) :=
  C7_at_threshold_skip 10 1 3 acceptAll [2, 3] 5 7 balAt7 rfl (by decide)
    (by decide)

end Kazar

namespace Kazar

/-- C4 counterexample: the batch lists recipient 2 twice (balance 0,
amount 30, threshold 1); the first payment raises its live balance to
30, the second occurrence is re-checked against that NEW balance and
skipped: the recipient is paid once, not twice, and the treasury loses
30, not 60. -/
theorem C4_counterexample :
    paidOf (distributeIfBelowFromTreasury 10 1 acceptAll 10 [2, 2] 30 1 bal100)
      = some [2] ∧
    balOf (distributeIfBelowFromTreasury 10 1 acceptAll 10 [2, 2] 30 1 bal100) 2
      = some 30 ∧
    balOf (distributeIfBelowFromTreasury 10 1 acceptAll 10 [2, 2] 30 1 bal100) 1
      = some 70 := by
  decide

/-- C4 amended: the aggregate pre-check uses the pre-transfer snapshot,
but the execution loop re-reads the live balance before each transfer: a
batch listing the same accepting, under-threshold external recipient
twice pays it a second time exactly when the first payment left its
balance still below the threshold, and otherwise skips the duplicate. -/
theorem C4_duplicate_recipient (owner self r : Nat) (accepts : Nat → Bool)
    (amount threshold : Nat) (bal : Nat → Nat)
    (h0 : r ≠ 0) (hs : r ≠ self) (hacc : accepts r = true)
    (hu : bal r < threshold) (h2 : 2 * amount ≤ bal self)
    (hw : 2 * amount < U256) :
    distributeIfBelowFromTreasury owner self accepts owner [r, r] amount
        threshold bal
      = .ok (execBatch self accepts amount threshold [r, r] bal) ∧
    (execBatch self accepts amount threshold [r, r] bal).2
      = (if bal r + amount < threshold then [r, r] else [r]) ∧
    (execBatch self accepts amount threshold [r, r] bal).1 r
      = bal r + (if bal r + amount < threshold then 2 * amount else amount) := by
  have hsr : self ≠ r := fun h => hs h.symm
  have hle : amount ≤ bal self := by omega
  have hTr : ∀ f : Nat → Nat, transferStep f self r amount r = f r + amount := by
    intro f
    simp [transferStep, updBal, hs]
  have hTself : ∀ f : Nat → Nat,
      transferStep f self r amount self = f self - amount := by
    intro f
    simp [transferStep, updBal, hsr]
  have hcnt : [r, r].countP (fun x => decide (bal x < threshold)) = 2 := by
    simp [List.countP_cons, hu]
  have hneed : distNeed bal amount threshold [r, r] = 2 * amount := by
    rw [distNeed_eq_mod, hcnt, Nat.mod_eq_of_lt (by omega)]
    omega
  have hgate : ¬bal self < distNeed bal amount threshold [r, r] := by
    rw [hneed]
    omega
  have hok1 : amount ≤ bal self ∧ accepts r = true := ⟨hle, hacc⟩
  have hexec : execBatch self accepts amount threshold [r, r] bal
      = if bal r + amount < threshold
        then (transferStep (transferStep bal self r amount) self r amount,
          [r, r])
        else (transferStep bal self r amount, [r]) := by
    have h1 : transferStep bal self r amount r = bal r + amount := hTr bal
    have h1s : transferStep bal self r amount self = bal self - amount :=
      hTself bal
    by_cases hsec : bal r + amount < threshold
    · have hok2 : amount ≤ transferStep bal self r amount self ∧
          accepts r = true := ⟨by rw [h1s]; omega, hacc⟩
      simp only [execBatch, if_neg h0, if_pos hu, if_pos hok1, h1,
        if_pos hsec, if_pos hok2]
    · simp only [execBatch, if_neg h0, if_pos hu, if_pos hok1, h1,
        if_neg hsec]
  refine ⟨by simp [distributeIfBelowFromTreasury, hgate], ?_, ?_⟩
  · rw [hexec]
    by_cases hsec : bal r + amount < threshold
    · simp [hsec]
    · simp [hsec]
  · rw [hexec]
    by_cases hsec : bal r + amount < threshold
    · simp only [if_pos hsec]
      rw [hTr, hTr]
      omega
    · simp only [if_neg hsec]
      rw [hTr]

theorem C4_duplicate_recipient_witness :
    distributeIfBelowFromTreasury 10 1 acceptAll 10 [2, 2] 30 1 bal100
      = .ok (execBatch 1 acceptAll 30 1 [2, 2] bal100) ∧
    (execBatch 1 acceptAll 30 1 [2, 2] bal100).2
      = (if bal100 2 + 30 < 1 then [2, 2] else [2]) ∧
    (execBatch 1 acceptAll 30 1 [2, 2] bal100).1 2
      = bal100 2 + (if bal100 2 + 30 < 1 then 2 * 30 else 30) :=
  C4_duplicate_recipient 10 1 2 acceptAll 30 1 bal100 (by decide) (by decide)
    (by decide) (by decide) (by decide) (by decide)

end Kazar
